import Mathlib

/-!
Verification of the MovieMania AI request dispatcher
(`server/src/services/geminiService.js`): key-pool construction,
preferred-index normalization, round-robin client ordering, the
retry/backoff state machine of `makeRequestWithRetry`, and the tolerant
JSON extraction of `cleanJson`.

The JavaScript code is shallowly embedded: JS strings are Lean `String`s
manipulated through executable models of the JS string primitives
(`split`, `trim`, `replace`, `indexOf`, `lastIndexOf`, `substring`,
`includes`); JS `%` on integers is `Int.tmod` (truncated remainder, sign
of the dividend); thrown JS errors are values of an explicit error
structure; the asynchronous dispatch loop is a pure function that
threads the rotation cursor, counts operation invocations and records
the backoff delays it would sleep.
-/

namespace MovieMania

/-! ## Models of the JavaScript string primitives -/

/-- Model of `Array.prototype.isPrefix`-style matching: does `p` occur at the
start of `s`? (Used to model pattern search inside `String.prototype.replace`.) -/
def leadsWith : List Char → List Char → Bool
  | [], _ => true
  | _ :: _, [] => false
  | p :: ps, c :: cs => p == c && leadsWith ps cs

/-- Fuel-driven worker for `jsReplaceAll`: replaces every non-overlapping
occurrence of `pat` in `s` by `rep`, scanning left to right, as
`String.prototype.replace` with a global literal pattern does. -/
def replaceAllAux (pat rep : List Char) : Nat → List Char → List Char
  | 0, s => s
  | _ + 1, [] => []
  | fuel + 1, c :: rest =>
    if leadsWith pat (c :: rest) && !pat.isEmpty then
      rep ++ replaceAllAux pat rep fuel ((c :: rest).drop pat.length)
    else
      c :: replaceAllAux pat rep fuel rest

/-- Model of `s.replace(/pat/g, rep)` for a literal pattern `pat`. -/
def jsReplaceAll (s pat rep : String) : String :=
  String.mk (replaceAllAux pat.data rep.data (s.data.length + 1) s.data)

/-- Model of `String.prototype.trim`: strip leading and trailing whitespace. -/
def trimChars (s : List Char) : List Char :=
  ((s.dropWhile Char.isWhitespace).reverse.dropWhile Char.isWhitespace).reverse

/-- `String`-level model of `String.prototype.trim`. -/
def jsTrim (s : String) : String :=
  String.mk (trimChars s.data)

/-- Worker for `jsSplitComma`, the model of `String.prototype.split(',')`:
accumulates the current field (reversed) and cuts at every comma. -/
def splitCommaAux : List Char → List Char → List (List Char)
  | [], acc => [acc.reverse]
  | c :: rest, acc =>
    if c == ',' then acc.reverse :: splitCommaAux rest []
    else splitCommaAux rest (c :: acc)

/-- Model of `value.split(',')`. -/
def jsSplitComma (s : String) : List String :=
  (splitCommaAux s.data []).map String.mk

/-- Does `pat` occur contiguously anywhere in the second list? -/
def occursIn : List Char → List Char → Bool
  | pat, [] => pat.isEmpty
  | pat, c :: rest => leadsWith pat (c :: rest) || occursIn pat rest

/-- Model of `String.prototype.includes`: `strIncludes s sub` is
`s.includes(sub)`. -/
def strIncludes (s sub : String) : Bool :=
  occursIn sub.data s.data

/-- The position of the first occurrence of `c` in `s`, when present. -/
def strIndexOfQ (s : String) (c : Char) : Option Nat :=
  s.data.findIdx? (fun x => x == c)

/-- The position of the last occurrence of `c` in `s`, when present (an index
`i` into the reversal corresponds to position `length - 1 - i`). -/
def strLastIndexOfQ (s : String) (c : Char) : Option Nat :=
  match s.data.reverse.findIdx? (fun x => x == c) with
  | some i => some (s.data.length - 1 - i)
  | none => none

/-- Model of `String.prototype.indexOf` for a single character: the index of
the first occurrence, or `-1` when absent. -/
def strIndexOf (s : String) (c : Char) : Int :=
  match strIndexOfQ s c with
  | some i => (i : Int)
  | none => -1

/-- Model of `String.prototype.lastIndexOf` for a single character: the index
of the last occurrence, or `-1` when absent. -/
def strLastIndexOf (s : String) (c : Char) : Int :=
  match strLastIndexOfQ s c with
  | some i => (i : Int)
  | none => -1

/-- Model of `String.prototype.substring(a, b)`: the characters between the
smaller and the larger of the two (clamped) positions. -/
def jsSubstring (s : String) (a b : Nat) : String :=
  String.mk (((s.data.drop (min a b)).take (max a b - min a b)))

/-- The character `{` (written by code point to keep it out of literals). -/
def lbrace : Char := Char.ofNat 123

/-- The character `}` (written by code point to keep it out of literals). -/
def rbrace : Char := Char.ofNat 125

/-! ## A model of the platform JSON parser

`cleanJson` delegates actual parsing to `JSON.parse`, a JavaScript engine
builtin that is not part of this repository.  The dispatcher only observes
whether `JSON.parse` succeeds or throws; the theorems about `cleanJson` are
therefore stated for an arbitrary parse function, and the function below is
a concrete executable instance used by the witnesses: a recursive-descent
validator of the JSON grammar (RFC 8259), with two simplifications that do
not affect any input appearing in the claims: escape sequences inside
strings are accepted without validation, and control characters inside
strings are not rejected.  Its diagnostics are the token-level messages
engines emit ("Unexpected token", "Unexpected end of JSON input"); real
engines never embed the whole original `cleanJson` argument in them, only
at most the substring handed to `JSON.parse`. -/

/-- The JSON insignificant-whitespace characters. -/
def jsonWs (c : Char) : Bool :=
  c == ' ' || c == '\n' || c == '\r' || c == '\t'

/-- Skip insignificant whitespace. -/
def skipWs (s : List Char) : List Char :=
  s.dropWhile jsonWs

/-- Consume a JSON string body after the opening quote; returns the input
after the closing quote. -/
def jsonStringBody : Nat → List Char → Except String (List Char)
  | 0, _ => Except.error "Unexpected end of JSON input"
  | _ + 1, [] => Except.error "Unexpected end of JSON input"
  | fuel + 1, c :: rest =>
    if c == '"' then Except.ok rest
    else if c == '\\' then
      match rest with
      | [] => Except.error "Unexpected end of JSON input"
      | _ :: rest2 => jsonStringBody fuel rest2
    else jsonStringBody fuel rest

/-- Consume the digits, optional fraction and optional exponent of a JSON
number whose first character has been checked to be a digit or `-`. -/
def jsonNumberTail (s : List Char) : Except String (List Char) :=
  let s1 := match s with
    | c :: rest => if c == '-' then rest else s
    | [] => s
  let intDigits := s1.takeWhile Char.isDigit
  match intDigits with
  | [] =>
    match s1 with
    | [] => Except.error "Unexpected end of JSON input"
    | _ => Except.error "Unexpected token"
  | d :: ds =>
    if d == '0' && !ds.isEmpty then Except.error "Unexpected token"
    else
      let s2 := s1.dropWhile Char.isDigit
      let afterFrac : Except String (List Char) :=
        match s2 with
        | c :: rest =>
          if c == '.' then
            match rest.takeWhile Char.isDigit with
            | [] => Except.error "Unexpected token"
            | _ => Except.ok (rest.dropWhile Char.isDigit)
          else Except.ok s2
        | [] => Except.ok s2
      match afterFrac with
      | Except.error m => Except.error m
      | Except.ok s3 =>
        match s3 with
        | c :: rest =>
          if c == 'e' || c == 'E' then
            let rest2 := match rest with
              | c2 :: r2 => if c2 == '+' || c2 == '-' then r2 else rest
              | [] => rest
            match rest2.takeWhile Char.isDigit with
            | [] => Except.error "Unexpected token"
            | _ => Except.ok (rest2.dropWhile Char.isDigit)
          else Except.ok s3
        | [] => Except.ok s3

/-- Expect the exact literal characters `lit` at the head of the input. -/
def jsonLiteral : List Char → List Char → Except String (List Char)
  | [], s => Except.ok s
  | _ :: _, [] => Except.error "Unexpected end of JSON input"
  | l :: ls, c :: rest =>
    if l == c then jsonLiteral ls rest else Except.error "Unexpected token"

mutual

/-- Consume one JSON value (with leading whitespace); returns the rest. -/
def jsonValueAux : Nat → List Char → Except String (List Char)
  | 0, _ => Except.error "Unexpected token"
  | fuel + 1, s =>
    match skipWs s with
    | [] => Except.error "Unexpected end of JSON input"
    | c :: rest =>
      if c == lbrace then jsonObjectItems fuel rest
      else if c == '[' then jsonArrayItems fuel rest
      else if c == '"' then jsonStringBody (rest.length + 1) rest
      else if c == 't' then jsonLiteral ['r', 'u', 'e'] rest
      else if c == 'f' then jsonLiteral ['a', 'l', 's', 'e'] rest
      else if c == 'n' then jsonLiteral ['u', 'l', 'l'] rest
      else if c == '-' || c.isDigit then jsonNumberTail (c :: rest)
      else Except.error "Unexpected token"

/-- Consume array items after `[`, including the closing `]`. -/
def jsonArrayItems : Nat → List Char → Except String (List Char)
  | 0, _ => Except.error "Unexpected token"
  | fuel + 1, s =>
    match skipWs s with
    | [] => Except.error "Unexpected end of JSON input"
    | c :: rest =>
      if c == ']' then Except.ok rest
      else
        match jsonValueAux fuel (c :: rest) with
        | Except.error m => Except.error m
        | Except.ok s2 =>
          match skipWs s2 with
          | [] => Except.error "Unexpected end of JSON input"
          | c2 :: rest2 =>
            if c2 == ',' then jsonArrayItems fuel rest2
            else if c2 == ']' then Except.ok rest2
            else Except.error "Unexpected token"

/-- Consume object members after the opening brace, including the closing
brace. -/
def jsonObjectItems : Nat → List Char → Except String (List Char)
  | 0, _ => Except.error "Unexpected token"
  | fuel + 1, s =>
    match skipWs s with
    | [] => Except.error "Unexpected end of JSON input"
    | c :: rest =>
      if c == rbrace then Except.ok rest
      else if c == '"' then
        match jsonStringBody (rest.length + 1) rest with
        | Except.error m => Except.error m
        | Except.ok s2 =>
          match skipWs s2 with
          | [] => Except.error "Unexpected end of JSON input"
          | c2 :: rest2 =>
            if c2 == ':' then
              match jsonValueAux fuel rest2 with
              | Except.error m => Except.error m
              | Except.ok s3 =>
                match skipWs s3 with
                | [] => Except.error "Unexpected end of JSON input"
                | c3 :: rest3 =>
                  if c3 == ',' then jsonObjectItems fuel rest3
                  else if c3 == rbrace then Except.ok rest3
                  else Except.error "Unexpected token"
            else Except.error "Unexpected token"
      else Except.error "Unexpected token"

end

/-- The concrete model of `JSON.parse` used by witnesses: validates that the
whole input is one JSON value (surrounded by optional whitespace). -/
def jsonParse (text : String) : Except String Unit :=
  match jsonValueAux (text.data.length + 1) text.data with
  | Except.error m => Except.error m
  | Except.ok rest =>
    match skipWs rest with
    | [] => Except.ok ()
    | _ => Except.error "Unexpected token"

/-! ## Errors thrown by operations and by the dispatcher

A JavaScript error reaching `makeRequestWithRetry`'s catch block is observed
through `err?.status`, `err?.response?.status`, `err?.message` and (on errors
the service itself constructs) `err.userMessage`.  The embedding keeps exactly
these fields; `status`/`responseStatus` are absent-or-numeric. -/

structure JsError where
  status : Option Nat := none
  responseStatus : Option Nat := none
  message : String := ""
  userMessage : Option String := none
deriving DecidableEq

/-- `const getStatus = (err) => err?.status ?? err?.response?.status`. -/
def getStatus (e : JsError) : Option Nat :=
  match e.status with
  | some s => some s
  | none => e.responseStatus

/-- `const getMessage = (err) => String(err?.message ?? '')`. -/
def getMessage (e : JsError) : String :=
  e.message

/-- `isQuotaExceeded429` (geminiService.js lines 65-74): a 429 whose message
indicates account-level quota exhaustion. -/
def isQuotaExceeded429 (e : JsError) : Bool :=
  if getStatus e != some 429 then false
  else
    strIncludes (getMessage e) "Quota exceeded"
      || strIncludes (getMessage e) "RESOURCE_EXHAUSTED"
      || strIncludes (getMessage e) "RATE_LIMIT_EXCEEDED"

/-- `const isAuthError = (status) => status === 401 || status === 403`. -/
def isAuthError (status : Option Nat) : Bool :=
  status == some 401 || status == some 403

/-- `isRetryableStatus` (geminiService.js lines 84-87): falsy statuses are not
retryable, otherwise membership in the retryable list. -/
def isRetryableStatus (status : Option Nat) : Bool :=
  match status with
  | none => false
  | some v =>
    if v == 0 then false
    else [408, 429, 500, 502, 503, 504].contains v

/-- The classified error thrown when the quota is exhausted
(geminiService.js lines 102-105). -/
def quotaError : JsError :=
  { status := some 429
    message := "Gemini quota exceeded"
    userMessage := some "AI is temporarily unavailable (Gemini quota exceeded). Try again later or increase your Gemini quota." }

/-- The classified error thrown when the pool is empty
(geminiService.js lines 77-79). -/
def notInitializedError : JsError :=
  { status := some 503
    message := "AI service not initialized"
    userMessage := some "AI features are disabled on the server." }

/-! ## The service state and its constructor -/

/-- The mutable state of the `GeminiService` singleton.  A `GoogleGenAI`
client is an opaque handle carrying only its credential, so the `clients`
array is represented by the list of credentials it was built from; only its
length and indices matter to the dispatcher. -/
structure GeminiService where
  apiKeys : List String
  clients : List String
  nextClientIndex : Nat
  model : String
deriving DecidableEq

/-- Truthiness of an environment variable (`undefined` or a string). -/
def jsTruthy : Option String → Bool
  | none => false
  | some s => s ≠ ""

/-- `parseKeyList` (geminiService.js lines 5-11): split the configured
comma-separated value, trim each entry, drop empty entries. -/
def parseKeyList (value : Option String) : List String :=
  match value with
  | none => []
  | some v =>
    if v = "" then []
    else ((jsSplitComma v).map jsTrim).filter (fun k => k ≠ "")

/-- The `GeminiService` constructor (geminiService.js lines 4-26), taking the
`GEMINI_API_KEYS` and `GEMINI_API_KEY` environment variables.  Returns the
constructed service and whether the "AI features will be disabled" warning
was emitted (`console.warn`, the constructor's only other effect; it never
throws). -/
def GeminiService.construct (geminiApiKeysEnv geminiApiKeyEnv : Option String) :
    GeminiService × Bool :=
  let keys0 := parseKeyList geminiApiKeysEnv
  let keys :=
    if keys0.length = 0 ∧ jsTruthy geminiApiKeyEnv then
      [jsTrim (geminiApiKeyEnv.getD "")].filter (fun k => k ≠ "")
    else keys0
  let clients := keys
  ({ apiKeys := keys, clients := clients, nextClientIndex := 0,
     model := "gemini-2.5-flash" },
   clients.length = 0)

/-- `get hasAI()` (geminiService.js lines 28-30). -/
def GeminiService.hasAI (s : GeminiService) : Bool :=
  s.clients.length > 0

/-! ## Preferred-index normalization and client ordering -/

/-- A JavaScript number that can reach the modulo computation: an integer or
a non-finite value (`NaN`, `±Infinity`). -/
inductive JsNumber where
  | int (v : Int)
  | nonFinite
deriving DecidableEq

/-- The preferred-key-index argument as it reaches
`normalizePreferredKeyIndex`: `undefined`, `null`, or a number.  A string
argument is first run through `parseInt(String(value), 10)` by the source,
which yields an integer or `NaN`, so it arrives here as a `num`. -/
inductive JsVal where
  | undef
  | null
  | num (n : JsNumber)
deriving DecidableEq

/-- `normalizePreferredKeyIndex` (geminiService.js lines 32-41).  JavaScript
`%` on integers is the truncated remainder `Int.tmod`. -/
def normalizePreferredKeyIndex (s : GeminiService) (value : JsVal) : Option Nat :=
  match value with
  | JsVal.undef => none
  | JsVal.null => none
  | JsVal.num JsNumber.nonFinite => none
  | JsVal.num (JsNumber.int parsed) =>
    if !s.hasAI then none
    else
      let count : Int := s.clients.length
      some (((parsed.tmod count + count).tmod count).toNat)

/-- `getClientOrder` (geminiService.js lines 43-60): the rotation order for
one round, together with the updated service state (the rotation cursor
advances only when no preferred index is pinned). -/
def getClientOrder (s : GeminiService) (preferredKeyIndex : JsVal) :
    List Nat × GeminiService :=
  let count := s.clients.length
  if count = 0 then ([], s)
  else
    let preferred := normalizePreferredKeyIndex s preferredKeyIndex
    let start := match preferred with
      | some p => p
      | none => s.nextClientIndex % count
    let s2 := match preferred with
      | none => { s with nextClientIndex := (start + 1) % count }
      | some _ => s
    ((List.range count).map (fun i => (start + i) % count), s2)

/-- The starts used by `n` consecutive calls that pin no preferred index:
each call's rotation order begins with its head element. -/
def unpinnedStarts (s : GeminiService) : Nat → List Nat
  | 0 => []
  | n + 1 =>
    let res := getClientOrder s JsVal.undef
    res.1.headD 0 :: unpinnedStarts res.2 n

/-! ## The retry / backoff dispatcher

`makeRequestWithRetry` (geminiService.js lines 62-138).  The caller-supplied
async `operation` closure is modelled as a function of the number of
operation invocations already performed in this call (capturing any state the
closure closes over) and the index of the client it is handed; it either
returns a value or throws a `JsError`.  `Math.random()` is modelled as a
stream of rationals indexed by how many backoff sleeps have happened.  The
result records the value returned or error thrown (`Except.error none` is
`throw undefined`, reachable when no round ever recorded an error), the
number of operation invocations, the backoff delays slept (in ms), and the
final service state. -/

inductive Outcome (α : Type) where
  | ok (v : α)
  | err (e : JsError)

/-- Result of the inner per-client loop of one round. -/
inductive InnerOut (α : Type) where
  | success (v : α) (calls : Nat)
  | thrown (e : JsError) (calls : Nat) (last : Option JsError)
  | ended (calls : Nat) (last : Option JsError)

/-- The inner `for (const clientIndex of order)` loop (lines 93-127):
`calls` counts operation invocations so far, `last` is `lastError`. -/
def tryClients {α : Type} (op : Nat → Nat → Outcome α) (attempt maxRetries : Nat) :
    List Nat → Nat → Option JsError → InnerOut α
  | [], calls, last => InnerOut.ended calls last
  | clientIndex :: restOrder, calls, _last =>
    match op calls clientIndex with
    | Outcome.ok v => InnerOut.success v (calls + 1)
    | Outcome.err error =>
      if isQuotaExceeded429 error then
        InnerOut.thrown quotaError (calls + 1) (some error)
      else if isAuthError (getStatus error) then
        tryClients op attempt maxRetries restOrder (calls + 1) (some error)
      else if getStatus error == some 429 then
        tryClients op attempt maxRetries restOrder (calls + 1) (some error)
      else if isRetryableStatus (getStatus error) && decide (attempt < maxRetries - 1) then
        InnerOut.ended (calls + 1) (some error)
      else
        InnerOut.thrown error (calls + 1) (some error)

/-- The observable result of one dispatcher call. -/
structure MRResult (α : Type) where
  out : Except (Option JsError) α
  calls : Nat
  sleeps : List Rat
  state : GeminiService

/-- The outer `for (let attempt = 0; ...)` loop (lines 91-135) plus the final
`throw lastError`; `remaining` counts the rounds still allowed, so the
zero-based round index is `attempt` and `attempt + remaining` stays equal to
`maxRetries` in a top-level call. -/
def retryLoop {α : Type} (op : Nat → Nat → Outcome α) (rand : Nat → Rat)
    (preferredKeyIndex : JsVal) (maxRetries : Nat) :
    Nat → GeminiService → Nat → Nat → Option JsError → List Rat → MRResult α
  | 0, s, _, calls, last, sleeps => ⟨Except.error last, calls, sleeps, s⟩
  | remaining + 1, s, attempt, calls, last, sleeps =>
    match tryClients op attempt maxRetries (getClientOrder s preferredKeyIndex).1 calls last with
    | InnerOut.success v calls2 =>
      ⟨Except.ok v, calls2, sleeps, (getClientOrder s preferredKeyIndex).2⟩
    | InnerOut.thrown e calls2 _ =>
      ⟨Except.error (some e), calls2, sleeps, (getClientOrder s preferredKeyIndex).2⟩
    | InnerOut.ended calls2 last2 =>
      if attempt < maxRetries - 1 then
        retryLoop op rand preferredKeyIndex maxRetries remaining
          (getClientOrder s preferredKeyIndex).2 (attempt + 1) calls2 last2
          (sleeps ++ [min 8000 (2 ^ attempt * 1000 + rand sleeps.length * 500)])
      else
        retryLoop op rand preferredKeyIndex maxRetries remaining
          (getClientOrder s preferredKeyIndex).2 (attempt + 1) calls2 last2 sleeps

/-- `makeRequestWithRetry` (geminiService.js lines 62-138).  The `maxRetries`
option defaults to 3 at the call sites modelled here. -/
def makeRequestWithRetry {α : Type} (op : Nat → Nat → Outcome α) (rand : Nat → Rat)
    (preferredKeyIndex : JsVal) (maxRetries : Nat) (s : GeminiService) : MRResult α :=
  if !s.hasAI then
    ⟨Except.error (some notInitializedError), 0, [], s⟩
  else
    retryLoop op rand preferredKeyIndex maxRetries maxRetries s 0 0 none []

/-! ## Tolerant JSON extraction -/

/-- The two failure shapes of `cleanJson`: the error thrown by `JSON.parse`
itself when the extracted substring does not parse (line 165 rethrows it
unchanged), and the service's own `Error` built at line 167. -/
inductive CleanJsonError where
  | parserError (msg : String)
  | extractionError (msg : String)
deriving DecidableEq

/-- The message of the `Error` constructed at geminiService.js line 167. -/
def parseFailMessage (text : String) : String :=
  "Failed to parse JSON from AI response: " ++ jsSubstring text 0 100 ++ "..."

/-- The code-fence stripping and trim of geminiService.js line 143. -/
def stripFenced (text : String) : String :=
  jsTrim (jsReplaceAll (jsReplaceAll text "```json" "") "```" "")

/-- `cleanJson` (geminiService.js lines 140-169), parameterized by the
platform JSON parser (`JSON.parse` is an engine builtin; on failure it
throws its own error, whose message the code does not touch). -/
def cleanJsonWith {α : Type} (parse : String → Except String α) (text : String) :
    Except CleanJsonError α :=
  match parse (stripFenced text) with
  | Except.ok v => Except.ok v
  | Except.error _ =>
    let firstBrace := strIndexOf text lbrace
    let lastBrace := strLastIndexOf text rbrace
    let firstBracket := strIndexOf text '['
    let lastBracket := strLastIndexOf text ']'
    let startEnd : Int × Int :=
      if firstBrace != -1 && (firstBracket == -1 || decide (firstBrace < firstBracket)) then
        (firstBrace, lastBrace)
      else if firstBracket != -1 then
        (firstBracket, lastBracket)
      else
        (-1, -1)
    if startEnd.1 != -1 && startEnd.2 != -1 then
      match parse (jsSubstring text startEnd.1.toNat (startEnd.2.toNat + 1)) with
      | Except.ok v => Except.ok v
      | Except.error m => Except.error (CleanJsonError.parserError m)
    else
      Except.error (CleanJsonError.extractionError (parseFailMessage text))

/-! ## Spec-side restatements used by the amended claims -/

/-- The delimiter-selection rule of claim C7, as amended, in its own words:
the first `{` and the first `[` in the original text are located; whichever
occurs first (and is present) determines object versus array; the substring
then ends at the last occurrence of the corresponding closer, and no range is
chosen when the opener or the corresponding closer is absent. -/
def jsonDelimiterChoice (text : String) : Option (Nat × Nat) :=
  match strIndexOfQ text lbrace, strIndexOfQ text '[' with
  | some ob, some br =>
    if ob < br then (strLastIndexOfQ text rbrace).map (fun e => (ob, e))
    else (strLastIndexOfQ text ']').map (fun e => (br, e))
  | some ob, none => (strLastIndexOfQ text rbrace).map (fun e => (ob, e))
  | none, some br => (strLastIndexOfQ text ']').map (fun e => (br, e))
  | none, none => none

/-- Claim C7, as amended, as a function: strip code fences, trim, try a
direct parse and return its value on success; otherwise select a delimiter
range in the original text and parse the substring through the chosen closer
(inclusive), returning its value on success and the parser's own error on
failure; when no range exists, fail with a parse error carrying the first
100 characters of the original text. -/
def cleanJsonSpec {α : Type} (parse : String → Except String α) (text : String) :
    Except CleanJsonError α :=
  match parse (stripFenced text) with
  | Except.ok v => Except.ok v
  | Except.error _ =>
    match jsonDelimiterChoice text with
    | some (a, b) =>
      match parse (jsSubstring text a (b + 1)) with
      | Except.ok v => Except.ok v
      | Except.error m => Except.error (CleanJsonError.parserError m)
    | none => Except.error (CleanJsonError.extractionError (parseFailMessage text))

/-- Claim C8, as amended, as a function, in its own words: split the
configured list on commas, trim each entry, drop empty entries, preserve
order (duplicates retained); if the result is empty, fall back to the single
trimmed legacy credential as a one-element list; if that is also empty, no
credentials. -/
def specPoolCredentials (keysEnv legacyEnv : Option String) : List String :=
  let primary := match keysEnv with
    | none => []
    | some v =>
      if v = "" then [] else ((jsSplitComma v).map jsTrim).filter (fun k => k ≠ "")
  if primary = [] then
    match legacyEnv with
    | none => []
    | some l => if l = "" then [] else [jsTrim l].filter (fun k => k ≠ "")
  else primary

/-! ## Concrete fixtures used by the witnesses -/

/-- A one-client pool. -/
def stOne : GeminiService :=
  { apiKeys := ["keyA"], clients := ["keyA"], nextClientIndex := 0,
    model := "gemini-2.5-flash" }

/-- A two-client pool. -/
def stTwo : GeminiService :=
  { apiKeys := ["keyA", "keyB"], clients := ["keyA", "keyB"], nextClientIndex := 0,
    model := "gemini-2.5-flash" }

/-- The empty pool. -/
def stEmpty : GeminiService :=
  { apiKeys := [], clients := [], nextClientIndex := 0, model := "gemini-2.5-flash" }

/-- A degenerate `Math.random` stream that always yields 0. -/
def rand0 : Nat → Rat := fun _ => 0

/-- A transient server failure. -/
def eTransient500 : JsError := { status := some 500, message := "Internal error" }

/-- A per-key auth failure. -/
def eAuth401 : JsError := { status := some 401, message := "API key not valid" }

/-- A per-key throttle whose body happens to contain `RATE_LIMIT_EXCEEDED`. -/
def eThrottle429 : JsError :=
  { status := some 429, message := "per-key throttle RATE_LIMIT_EXCEEDED" }

/-- A per-key throttle whose body matches none of the quota substrings. -/
def ePlain429 : JsError := { status := some 429, message := "slow down" }

/-- An account-wide quota failure. -/
def eQuota429 : JsError :=
  { status := some 429, message := "Quota exceeded for quota metric" }

/-- An unclassified failure carrying neither a status nor a user message. -/
def eBare : JsError := { message := "boom" }

/-- An operation failing with a transient error on every invocation. -/
def opAllTransient : Nat → Nat → Outcome Unit := fun _ _ => Outcome.err eTransient500

/-- An operation failing with a quota error on every invocation. -/
def opAllQuota : Nat → Nat → Outcome Unit := fun _ _ => Outcome.err eQuota429

/-- An operation failing with the mislabelled throttle on every invocation. -/
def opAllThrottle : Nat → Nat → Outcome Unit := fun _ _ => Outcome.err eThrottle429

/-- An operation whose first invocation fails with an auth error and whose
second invocation succeeds. -/
def opAuthThenOk : Nat → Nat → Outcome Nat :=
  fun k _ => if k = 0 then Outcome.err eAuth401 else Outcome.ok 42

/-- An operation failing with the bare unclassified error on every
invocation. -/
def opAllBare : Nat → Nat → Outcome Unit := fun _ _ => Outcome.err eBare

/-- An operation failing with the plain (non-quota) 429 on every
invocation. -/
def opAllPlain429 : Nat → Nat → Outcome Unit := fun _ _ => Outcome.err ePlain429

/-! ## Arithmetic helper lemmas -/

theorem jsDoubleTmod (v : Int) (n : Nat) (h : 0 < n) :
    ((v.tmod (n : Int)) + (n : Int)).tmod (n : Int) = v % (n : Int) := by
  cases v with
  | ofNat m =>
    have h1 : (Int.ofNat m).tmod (n : Int) = ((m % n : Nat) : Int) := rfl
    rw [h1]
    have h2 : ((m % n : Nat) : Int) + (n : Int) = ((m % n + n : Nat) : Int) := by
      push_cast; ring
    rw [h2]
    have h3 : ((m % n + n : Nat) : Int).tmod (n : Int) = (((m % n + n) % n : Nat) : Int) := rfl
    rw [h3, Nat.add_mod_right, Nat.mod_mod_of_dvd m dvd_rfl]
    show ((m % n : Nat) : Int) = (m : Int) % (n : Int)
    push_cast
    ring_nf
  | negSucc m =>
    have h1 : (Int.negSucc m).tmod (n : Int) = -(((m + 1) % n : Nat) : Int) := rfl
    rw [h1]
    have hsn : (m + 1) % n < n := Nat.mod_lt _ h
    have h2 : -(((m + 1) % n : Nat) : Int) + (n : Int) = ((n - (m + 1) % n : Nat) : Int) := by
      push_cast [Nat.le_of_lt hsn]
      ring
    rw [h2]
    have h3 : ((n - (m + 1) % n : Nat) : Int).tmod (n : Int)
        = (((n - (m + 1) % n) % n : Nat) : Int) := rfl
    rw [h3]
    have hrn : (n - (m + 1) % n) % n < n := Nat.mod_lt _ h
    obtain ⟨q, hq⟩ : ∃ q, n * q + (m + 1) % n = m + 1 :=
      ⟨(m + 1) / n, Nat.div_add_mod (m + 1) n⟩
    have hdvd : ∃ k : Nat, (n - (m + 1) % n) % n + m + 1 = n * k := by
      by_cases hs0 : (m + 1) % n = 0
      · refine ⟨q, ?_⟩
        rw [hs0, Nat.sub_zero, Nat.mod_self]
        omega
      · refine ⟨q + 1, ?_⟩
        have hrv : (n - (m + 1) % n) % n = n - (m + 1) % n := Nat.mod_eq_of_lt (by omega)
        rw [hrv, Nat.mul_succ]
        omega
    obtain ⟨k, hk⟩ := hdvd
    have hns : Int.negSucc m
        = (((n - (m + 1) % n) % n : Nat) : Int) + (n : Int) * (-(k : Int)) := by
      rw [Int.negSucc_eq]
      have hc : ((((n - (m + 1) % n) % n : Nat) : Int) + (m : Int) + 1)
          = (n : Int) * (k : Int) := by exact_mod_cast hk
      linear_combination -hc
    rw [hns, Int.add_mul_emod_self_left]
    exact (Int.emod_eq_of_lt (by exact_mod_cast Nat.zero_le _) (by exact_mod_cast hrn)).symm

theorem emod_toNat_lt (v : Int) (N : Nat) (h : 0 < N) : (v % (N : Int)).toNat < N := by
  have h1 : 0 ≤ v % (N : Int) := Int.emod_nonneg v (by exact_mod_cast h.ne')
  have h2 : v % (N : Int) < (N : Int) := Int.emod_lt_of_pos v (by exact_mod_cast h)
  omega

theorem rotation_inj (N s i j : Nat) (hi : i < N) (hj : j < N)
    (hij : (s + i) % N = (s + j) % N) : i = j := by
  have h2 : i ≡ j [MOD N] := Nat.ModEq.add_left_cancel' s hij
  have h3 : i % N = j % N := h2
  rwa [Nat.mod_eq_of_lt hi, Nat.mod_eq_of_lt hj] at h3

theorem rotation_mem (N s m : Nat) (h : 0 < N) (hs : s < N) (hm : m < N) :
    m ∈ (List.range N).map (fun i => (s + i) % N) := by
  refine List.mem_map.2 ⟨(N + m - s) % N, List.mem_range.2 (Nat.mod_lt _ h), ?_⟩
  show (s + (N + m - s) % N) % N = m
  rw [Nat.add_mod_mod, show s + (N + m - s) = N + m by omega, Nat.add_mod_left,
    Nat.mod_eq_of_lt hm]

theorem rotation_nodup (N s : Nat) : ((List.range N).map (fun i => (s + i) % N)).Nodup := by
  refine List.Nodup.map_on ?_ (List.nodup_range N)
  intro i hi j hj hij
  exact rotation_inj N s i j (List.mem_range.1 hi) (List.mem_range.1 hj) hij

/-! ## Dispatcher unfolding lemmas -/

theorem tryClients_ok {α : Type} (op : Nat → Nat → Outcome α) (a mr c : Nat) (rest : List Nat)
    (calls : Nat) (last : Option JsError) (v : α) (hop : op calls c = Outcome.ok v) :
    tryClients op a mr (c :: rest) calls last = InnerOut.success v (calls + 1) := by
  conv_lhs => rw [tryClients]
  rw [hop]

theorem tryClients_quota {α : Type} (op : Nat → Nat → Outcome α) (a mr c : Nat)
    (rest : List Nat) (calls : Nat) (last : Option JsError) (e : JsError)
    (hop : op calls c = Outcome.err e) (hq : isQuotaExceeded429 e = true) :
    tryClients op a mr (c :: rest) calls last
      = InnerOut.thrown quotaError (calls + 1) (some e) := by
  conv_lhs => rw [tryClients]
  rw [hop]
  simp [hq]

theorem authNotQuota (e : JsError) (ha : isAuthError (getStatus e) = true) :
    isQuotaExceeded429 e = false := by
  have ha2 : getStatus e = some 401 ∨ getStatus e = some 403 := by
    simpa [isAuthError] using ha
  rcases ha2 with hst | hst <;> simp [isQuotaExceeded429, hst]

theorem tryClients_cont {α : Type} (op : Nat → Nat → Outcome α) (a mr c : Nat)
    (rest : List Nat) (calls : Nat) (last : Option JsError) (e : JsError)
    (hop : op calls c = Outcome.err e)
    (he : isAuthError (getStatus e) = true
      ∨ (getStatus e = some 429 ∧ isQuotaExceeded429 e = false)) :
    tryClients op a mr (c :: rest) calls last
      = tryClients op a mr rest (calls + 1) (some e) := by
  conv_lhs => rw [tryClients]
  rw [hop]
  rcases he with h | ⟨h1, h2⟩
  · simp [authNotQuota e h, h]
  · simp [h1, h2, isAuthError]

theorem transientFacts (e : JsError) (s : Nat) (hst : getStatus e = some s)
    (hmem : s ∈ [408, 500, 502, 503, 504]) :
    isQuotaExceeded429 e = false ∧ isAuthError (getStatus e) = false
      ∧ (getStatus e == some 429) = false ∧ isRetryableStatus (getStatus e) = true := by
  fin_cases hmem <;> simp [isQuotaExceeded429, isAuthError, isRetryableStatus, hst]

theorem tryClients_break {α : Type} (op : Nat → Nat → Outcome α) (a mr c : Nat)
    (rest : List Nat) (calls : Nat) (last : Option JsError) (e : JsError) (s : Nat)
    (hop : op calls c = Outcome.err e) (hst : getStatus e = some s)
    (hmem : s ∈ [408, 500, 502, 503, 504]) (hat : a < mr - 1) :
    tryClients op a mr (c :: rest) calls last = InnerOut.ended (calls + 1) (some e) := by
  obtain ⟨f1, f2, f3, f4⟩ := transientFacts e s hst hmem
  conv_lhs => rw [tryClients]
  rw [hop]
  simp [f1, f2, f3, f4, hat]

theorem tryClients_throw {α : Type} (op : Nat → Nat → Outcome α) (a mr c : Nat)
    (rest : List Nat) (calls : Nat) (last : Option JsError) (e : JsError)
    (hop : op calls c = Outcome.err e)
    (hq : isQuotaExceeded429 e = false) (hauth : isAuthError (getStatus e) = false)
    (h429 : (getStatus e == some 429) = false)
    (hretry : isRetryableStatus (getStatus e) = false ∨ ¬ a < mr - 1) :
    tryClients op a mr (c :: rest) calls last
      = InnerOut.thrown e (calls + 1) (some e) := by
  conv_lhs => rw [tryClients]
  rw [hop]
  rcases hretry with h | h
  · simp [hq, hauth, h429, h]
  · simp [hq, hauth, h429, h]

theorem retryLoop_zero {α : Type} (op : Nat → Nat → Outcome α) (rand : Nat → Rat)
    (pref : JsVal) (mr : Nat) (s : GeminiService) (a calls : Nat)
    (last : Option JsError) (sleeps : List Rat) :
    retryLoop op rand pref mr 0 s a calls last sleeps
      = ⟨Except.error last, calls, sleeps, s⟩ := rfl

theorem retryLoop_success {α : Type} (op : Nat → Nat → Outcome α) (rand : Nat → Rat)
    (pref : JsVal) (mr r : Nat) (s : GeminiService) (a calls : Nat)
    (last : Option JsError) (sleeps : List Rat) (v : α) (calls2 : Nat)
    (h : tryClients op a mr (getClientOrder s pref).1 calls last
          = InnerOut.success v calls2) :
    retryLoop op rand pref mr (r + 1) s a calls last sleeps
      = ⟨Except.ok v, calls2, sleeps, (getClientOrder s pref).2⟩ := by
  conv_lhs => rw [retryLoop]
  rw [h]

theorem retryLoop_thrown {α : Type} (op : Nat → Nat → Outcome α) (rand : Nat → Rat)
    (pref : JsVal) (mr r : Nat) (s : GeminiService) (a calls : Nat)
    (last lasto : Option JsError) (sleeps : List Rat) (e : JsError) (calls2 : Nat)
    (h : tryClients op a mr (getClientOrder s pref).1 calls last
          = InnerOut.thrown e calls2 lasto) :
    retryLoop op rand pref mr (r + 1) s a calls last sleeps
      = ⟨Except.error (some e), calls2, sleeps, (getClientOrder s pref).2⟩ := by
  conv_lhs => rw [retryLoop]
  rw [h]

theorem retryLoop_backoff {α : Type} (op : Nat → Nat → Outcome α) (rand : Nat → Rat)
    (pref : JsVal) (mr r : Nat) (s : GeminiService) (a calls : Nat)
    (last last2 : Option JsError) (sleeps : List Rat) (calls2 : Nat)
    (h : tryClients op a mr (getClientOrder s pref).1 calls last
          = InnerOut.ended calls2 last2)
    (hat : a < mr - 1) :
    retryLoop op rand pref mr (r + 1) s a calls last sleeps
      = retryLoop op rand pref mr r (getClientOrder s pref).2 (a + 1) calls2 last2
          (sleeps ++ [min 8000 (2 ^ a * 1000 + rand sleeps.length * 500)]) := by
  conv_lhs => rw [retryLoop]
  rw [h]
  simp [hat]

theorem retryLoop_final {α : Type} (op : Nat → Nat → Outcome α) (rand : Nat → Rat)
    (pref : JsVal) (mr r : Nat) (s : GeminiService) (a calls : Nat)
    (last last2 : Option JsError) (sleeps : List Rat) (calls2 : Nat)
    (h : tryClients op a mr (getClientOrder s pref).1 calls last
          = InnerOut.ended calls2 last2)
    (hat : ¬ a < mr - 1) :
    retryLoop op rand pref mr (r + 1) s a calls last sleeps
      = retryLoop op rand pref mr r (getClientOrder s pref).2 (a + 1) calls2 last2 sleeps := by
  conv_lhs => rw [retryLoop]
  rw [h]
  simp [hat]

theorem makeRequestWithRetry_run {α : Type} (op : Nat → Nat → Outcome α) (rand : Nat → Rat)
    (pref : JsVal) (mr : Nat) (s : GeminiService) (h : 0 < s.clients.length) :
    makeRequestWithRetry op rand pref mr s = retryLoop op rand pref mr mr s 0 0 none [] := by
  unfold makeRequestWithRetry
  simp [GeminiService.hasAI, h]

theorem makeRequestWithRetry_empty {α : Type} (op : Nat → Nat → Outcome α) (rand : Nat → Rat)
    (pref : JsVal) (mr : Nat) (s : GeminiService) (h : s.clients.length = 0) :
    makeRequestWithRetry op rand pref mr s
      = ⟨Except.error (some notInitializedError), 0, [], s⟩ := by
  unfold makeRequestWithRetry
  simp [GeminiService.hasAI, h]

theorem getClientOrder_unpinned (s : GeminiService) (h : 0 < s.clients.length) :
    getClientOrder s JsVal.undef
      = ((List.range s.clients.length).map
          (fun i => (s.nextClientIndex % s.clients.length + i) % s.clients.length),
         { s with nextClientIndex :=
            (s.nextClientIndex % s.clients.length + 1) % s.clients.length }) := by
  unfold getClientOrder
  simp [normalizePreferredKeyIndex, Nat.pos_iff_ne_zero.1 h]

theorem getClientOrder_pinned (s : GeminiService) (pref : JsVal) (p : Nat)
    (hp : normalizePreferredKeyIndex s pref = some p) (h : 0 < s.clients.length) :
    getClientOrder s pref
      = ((List.range s.clients.length).map (fun i => (p + i) % s.clients.length), s) := by
  unfold getClientOrder
  simp [hp, Nat.pos_iff_ne_zero.1 h]

/-! ## Claim theorems and witnesses -/

theorem getClientOrder_length (s : GeminiService) (pref : JsVal) :
    (getClientOrder s pref).1.length = s.clients.length := by
  unfold getClientOrder
  by_cases h : s.clients.length = 0 <;> simp [h]

theorem getClientOrder_ne_nil (s : GeminiService) (pref : JsVal)
    (h : 0 < s.clients.length) :
    ∃ c rest, (getClientOrder s pref).1 = c :: rest := by
  rcases h2 : (getClientOrder s pref).1 with _ | ⟨c, rest⟩
  · exfalso
    have hlen := getClientOrder_length s pref
    rw [h2] at hlen
    simp at hlen
    omega
  · exact ⟨c, rest, rfl⟩

/-- Claim C5: if the client pool is empty, `makeRequestWithRetry` fails
immediately with a ServiceUnavailable error (status 503, message
"AI service not initialized", with a user-facing message) before attempting
any round; the operation is invoked zero times, no backoff sleep happens, and
the failure is not retried. -/
theorem claimC5 {α : Type} (op : Nat → Nat → Outcome α) (rand : Nat → Rat)
    (pref : JsVal) (maxRetries : Nat) (s : GeminiService) (h : s.clients = []) :
    makeRequestWithRetry op rand pref maxRetries s
      = ⟨Except.error (some notInitializedError), 0, [], s⟩
    ∧ notInitializedError.status = some 503
    ∧ notInitializedError.message = "AI service not initialized"
    ∧ notInitializedError.userMessage.isSome = true := by
  refine ⟨?_, rfl, rfl, rfl⟩
  exact makeRequestWithRetry_empty op rand pref maxRetries s (by rw [h]; rfl)

theorem claimC5_witness :
    makeRequestWithRetry opAllTransient rand0 JsVal.undef 3 stEmpty
      = ⟨Except.error (some notInitializedError), 0, [], stEmpty⟩ :=
  (claimC5 opAllTransient rand0 JsVal.undef 3 stEmpty rfl).1

/-- Claim C4: `normalizePreferredKeyIndex` returns null for null/absent
input, for non-finite input, and whenever the pool is empty; otherwise, for
every pool size N ≥ 1 and every integer v (including negatives) it returns
`((v mod N) + N) mod N`, the true mathematical modulo of v by N, a value in
[0, N). -/
theorem claimC4 (s : GeminiService) :
    normalizePreferredKeyIndex s JsVal.undef = none
  ∧ normalizePreferredKeyIndex s JsVal.null = none
  ∧ normalizePreferredKeyIndex s (JsVal.num JsNumber.nonFinite) = none
  ∧ (s.clients.length = 0 → ∀ v : JsVal, normalizePreferredKeyIndex s v = none)
  ∧ (0 < s.clients.length → ∀ v : Int,
      normalizePreferredKeyIndex s (JsVal.num (JsNumber.int v))
        = some ((v % (s.clients.length : Int)).toNat)
      ∧ (v % (s.clients.length : Int)).toNat < s.clients.length
      ∧ ((v % (s.clients.length : Int)) + (s.clients.length : Int))
            % (s.clients.length : Int) = v % (s.clients.length : Int)) := by
  refine ⟨rfl, rfl, rfl, ?_, ?_⟩
  · intro h v
    cases v with
    | undef => rfl
    | null => rfl
    | num n =>
      cases n with
      | nonFinite => rfl
      | int v =>
        unfold normalizePreferredKeyIndex
        simp [GeminiService.hasAI, h]
  · intro h v
    refine ⟨?_, emod_toNat_lt v _ h, ?_⟩
    · show (if (!s.hasAI) = true then none
          else some (((v.tmod (s.clients.length : Int) + (s.clients.length : Int)).tmod
            (s.clients.length : Int)).toNat))
        = some ((v % (s.clients.length : Int)).toNat)
      rw [if_neg (by simp [GeminiService.hasAI, h]), jsDoubleTmod v _ h]
    · have h1 := Int.add_mul_emod_self_left (v % (s.clients.length : Int))
        ((s.clients.length : Int)) 1
      rw [mul_one] at h1
      rw [h1, Int.emod_emod_of_dvd _ dvd_rfl]

theorem claimC4_witness :
    normalizePreferredKeyIndex stTwo (JsVal.num (JsNumber.int (-5)))
      = some (((-5 : Int) % ((2 : Nat) : Int)).toNat)
  ∧ normalizePreferredKeyIndex stEmpty (JsVal.num (JsNumber.int 7)) = none :=
  ⟨((claimC4 stTwo).2.2.2.2 (by decide) (-5)).1,
   (claimC4 stEmpty).2.2.2.1 rfl (JsVal.num (JsNumber.int 7))⟩

/-- Claim C10: during dispatch, a caught failure is treated as account-wide
quota exhaustion if and only if its status is 429 and its message contains
one of "Quota exceeded", "RESOURCE_EXHAUSTED" or "RATE_LIMIT_EXCEEDED";
every other 429 merely rotates to the next client in the round; hence a
per-key throttle whose message happens to contain "RATE_LIMIT_EXCEEDED"
aborts the whole call instead of rotating. -/
theorem claimC10 :
    (∀ e : JsError, isQuotaExceeded429 e = true ↔
      (getStatus e = some 429
        ∧ (strIncludes (getMessage e) "Quota exceeded" = true
          ∨ strIncludes (getMessage e) "RESOURCE_EXHAUSTED" = true
          ∨ strIncludes (getMessage e) "RATE_LIMIT_EXCEEDED" = true)))
  ∧ (∀ (α : Type) (op : Nat → Nat → Outcome α) (a mr c : Nat) (rest : List Nat)
      (calls : Nat) (last : Option JsError) (e : JsError),
      op calls c = Outcome.err e → getStatus e = some 429 →
      isQuotaExceeded429 e = false →
      tryClients op a mr (c :: rest) calls last
        = tryClients op a mr rest (calls + 1) (some e))
  ∧ (makeRequestWithRetry opAllThrottle rand0 JsVal.undef 3 stTwo).out
      = Except.error (some quotaError)
  ∧ (makeRequestWithRetry opAllThrottle rand0 JsVal.undef 3 stTwo).calls = 1
  ∧ (makeRequestWithRetry opAllThrottle rand0 JsVal.undef 3 stTwo).sleeps = [] := by
  refine ⟨?_, ?_, rfl, rfl, rfl⟩
  · intro e
    by_cases hst : getStatus e = some 429
    · simp only [isQuotaExceeded429, hst]
      simp [Bool.or_eq_true]
      tauto
    · simp only [isQuotaExceeded429]
      simp [hst]
  · intro α op a mr c rest calls last e hop h1 h2
    exact tryClients_cont op a mr c rest calls last e hop (Or.inr ⟨h1, h2⟩)

/-- Claim C6: within a round, an AuthError (401/403) or a per-key 429 not
classified as quota exhaustion is recorded as the last error and the
dispatcher continues to the next client of the same round with no backoff;
on a 2-client pool an AuthError on client 0 followed by success on client 1
returns the success result without any backoff sleep. -/
theorem claimC6 (e : JsError)
    (he : isAuthError (getStatus e) = true
      ∨ (getStatus e = some 429 ∧ isQuotaExceeded429 e = false)) :
    (∀ (α : Type) (op : Nat → Nat → Outcome α) (a mr c : Nat) (rest : List Nat)
      (calls : Nat) (last : Option JsError),
      op calls c = Outcome.err e →
      tryClients op a mr (c :: rest) calls last
        = tryClients op a mr rest (calls + 1) (some e))
  ∧ (∀ (α : Type) (op : Nat → Nat → Outcome α) (rand : Nat → Rat) (v : α),
      op 0 0 = Outcome.err e → op 1 1 = Outcome.ok v →
      makeRequestWithRetry op rand JsVal.undef 3 stTwo
        = ⟨Except.ok v, 2, [], { stTwo with nextClientIndex := 1 }⟩) := by
  constructor
  · intro α op a mr c rest calls last hop
    exact tryClients_cont op a mr c rest calls last e hop he
  · intro α op rand v hop0 hop1
    have h1 : tryClients op 0 3 (getClientOrder stTwo JsVal.undef).1 0 none
        = InnerOut.success v 2 := by
      rw [show (getClientOrder stTwo JsVal.undef).1 = [0, 1] from rfl,
        tryClients_cont op 0 3 0 [1] 0 none e hop0 he,
        tryClients_ok op 0 3 1 [] 1 (some e) v hop1]
    rw [makeRequestWithRetry_run op rand JsVal.undef 3 stTwo (by decide),
      retryLoop_success op rand JsVal.undef 3 2 stTwo 0 0 none [] v 2 h1]
    rfl

theorem claimC6_witness :
    makeRequestWithRetry opAuthThenOk rand0 JsVal.undef 3 stTwo
      = ⟨Except.ok 42, 2, [], { stTwo with nextClientIndex := 1 }⟩ :=
  (claimC6 eAuth401 (Or.inl rfl)).2 Nat opAuthThenOk rand0 42 rfl rfl

/-- Claim C2: a QuotaExhausted outcome on any client aborts the entire call
immediately: the inner loop throws the classified quota error without trying
further clients, the outer loop surfaces a thrown error without further
rounds or backoff, and a call whose first invocation hits a quota error ends
with status 429, one invocation, no sleeps, and a user-facing message
indicating quota exhaustion. -/
theorem claimC2 (e : JsError) (hq : isQuotaExceeded429 e = true) :
    (∀ (α : Type) (op : Nat → Nat → Outcome α) (a mr c : Nat) (rest : List Nat)
      (calls : Nat) (last : Option JsError),
      op calls c = Outcome.err e →
      tryClients op a mr (c :: rest) calls last
        = InnerOut.thrown quotaError (calls + 1) (some e))
  ∧ (∀ (α : Type) (op : Nat → Nat → Outcome α) (rand : Nat → Rat) (pref : JsVal)
      (mr r : Nat) (s0 : GeminiService) (a calls calls2 : Nat)
      (last lasto : Option JsError) (sleeps : List Rat) (e2 : JsError),
      tryClients op a mr (getClientOrder s0 pref).1 calls last
        = InnerOut.thrown e2 calls2 lasto →
      retryLoop op rand pref mr (r + 1) s0 a calls last sleeps
        = ⟨Except.error (some e2), calls2, sleeps, (getClientOrder s0 pref).2⟩)
  ∧ (∀ (α : Type) (op : Nat → Nat → Outcome α) (rand : Nat → Rat) (pref : JsVal)
      (s0 : GeminiService) (mr : Nat),
      0 < s0.clients.length → (∀ c, op 0 c = Outcome.err e) → 1 ≤ mr →
      (makeRequestWithRetry op rand pref mr s0).out = Except.error (some quotaError)
      ∧ (makeRequestWithRetry op rand pref mr s0).calls = 1
      ∧ (makeRequestWithRetry op rand pref mr s0).sleeps = [])
  ∧ quotaError.status = some 429
  ∧ strIncludes (quotaError.userMessage.getD "") "quota exceeded" = true := by
  refine ⟨?_, ?_, ?_, rfl, by decide⟩
  · intro α op a mr c rest calls last hop
    exact tryClients_quota op a mr c rest calls last e hop hq
  · intro α op rand pref mr r s0 a calls calls2 last lasto sleeps e2 h
    exact retryLoop_thrown op rand pref mr r s0 a calls last lasto sleeps e2 calls2 h
  · intro α op rand pref s0 mr hN hop hmr
    obtain ⟨mr2, rfl⟩ : ∃ k, mr = k + 1 := ⟨mr - 1, by omega⟩
    obtain ⟨c, rest, hcr⟩ := getClientOrder_ne_nil s0 pref hN
    have h1 : tryClients op 0 (mr2 + 1) (getClientOrder s0 pref).1 0 none
        = InnerOut.thrown quotaError 1 (some e) := by
      rw [hcr]
      exact tryClients_quota op 0 (mr2 + 1) c rest 0 none e (hop c) hq
    rw [makeRequestWithRetry_run op rand pref (mr2 + 1) s0 hN,
      retryLoop_thrown op rand pref (mr2 + 1) mr2 s0 0 0 none (some e) [] quotaError 1 h1]
    exact ⟨rfl, rfl, rfl⟩

theorem claimC2_witness :
    (makeRequestWithRetry opAllQuota rand0 JsVal.undef 3 stTwo).out
      = Except.error (some quotaError)
    ∧ (makeRequestWithRetry opAllQuota rand0 JsVal.undef 3 stTwo).calls = 1
    ∧ (makeRequestWithRetry opAllQuota rand0 JsVal.undef 3 stTwo).sleeps = [] :=
  (claimC2 eQuota429 (by decide)).2.2.1 Unit opAllQuota rand0 JsVal.undef stTwo 3
    (by decide) (fun c => rfl) (by decide)

theorem getClientOrder_unresolved (s : GeminiService) (pref : JsVal)
    (hp : normalizePreferredKeyIndex s pref = none) (h : 0 < s.clients.length) :
    getClientOrder s pref
      = ((List.range s.clients.length).map
          (fun i => (s.nextClientIndex % s.clients.length + i) % s.clients.length),
         { s with nextClientIndex :=
            (s.nextClientIndex % s.clients.length + 1) % s.clients.length }) := by
  unfold getClientOrder
  simp [hp, Nat.pos_iff_ne_zero.1 h]

theorem normalize_lt (s : GeminiService) (pref : JsVal) (p : Nat)
    (hp : normalizePreferredKeyIndex s pref = some p) : p < s.clients.length := by
  cases pref with
  | undef => simp [normalizePreferredKeyIndex] at hp
  | null => simp [normalizePreferredKeyIndex] at hp
  | num n =>
    cases n with
    | nonFinite => simp [normalizePreferredKeyIndex] at hp
    | int v =>
      by_cases hA : s.hasAI
      · have hlen : 0 < s.clients.length := by
          simpa [GeminiService.hasAI] using hA
        have hv : normalizePreferredKeyIndex s (JsVal.num (JsNumber.int v))
            = some ((v % (s.clients.length : Int)).toNat) := by
          show (if (!s.hasAI) = true then none
              else some (((v.tmod (s.clients.length : Int) + (s.clients.length : Int)).tmod
                (s.clients.length : Int)).toNat))
            = some ((v % (s.clients.length : Int)).toNat)
          rw [if_neg (by simp [hA]), jsDoubleTmod v _ hlen]
        rw [hv] at hp
        injection hp with hpp
        rw [← hpp]
        exact emod_toNat_lt v _ hlen
      · have hv : normalizePreferredKeyIndex s (JsVal.num (JsNumber.int v)) = none := by
          show (if (!s.hasAI) = true then none
              else some (((v.tmod (s.clients.length : Int) + (s.clients.length : Int)).tmod
                (s.clients.length : Int)).toNat)) = none
          rw [if_pos (by simp [hA])]
        rw [hv] at hp
        cases hp

theorem unpinnedStarts_formula (n : Nat) : ∀ (s : GeminiService), 0 < s.clients.length →
    unpinnedStarts s n = (List.range n).map
      (fun j => (s.nextClientIndex % s.clients.length + j) % s.clients.length) := by
  induction n with
  | zero => intro s _; rfl
  | succ n ih =>
    intro s h
    show (getClientOrder s JsVal.undef).1.headD 0
        :: unpinnedStarts (getClientOrder s JsVal.undef).2 n = _
    rw [getClientOrder_unpinned s h]
    rw [ih { s with nextClientIndex :=
        (s.nextClientIndex % s.clients.length + 1) % s.clients.length } h]
    rw [List.range_succ_eq_map, List.map_cons, List.map_map]
    obtain ⟨m, hm⟩ : ∃ m, s.clients.length = m + 1 := ⟨s.clients.length - 1, by omega⟩
    congr 1
    · rw [hm, List.range_succ_eq_map]
      rfl
    · apply List.map_congr_left
      intro j _
      show (((s.nextClientIndex % s.clients.length + 1) % s.clients.length)
            % s.clients.length + j) % s.clients.length
          = (s.nextClientIndex % s.clients.length + Nat.succ j) % s.clients.length
      rw [Nat.mod_mod_of_dvd _ dvd_rfl, Nat.mod_add_mod]
      congr 1
      omega

/-- Claim C3: for every pool size N ≥ 1, `getClientOrder` returns the cyclic
order [start, start+1, ..., start+N-1] mod N — exactly N distinct indices
covering [0, N); when the preferred index is absent or invalid the start is
the shared rotation cursor and the cursor advances by 1 (mod N), so N
consecutive unpinned calls use each index as start exactly once; when the
preferred index normalizes to a concrete index the rotation starts there and
the cursor is not modified. -/
theorem claimC3 (s : GeminiService) (pref : JsVal) (hN : 0 < s.clients.length) :
    (∃ start : Nat, start < s.clients.length
      ∧ (getClientOrder s pref).1
          = (List.range s.clients.length).map (fun i => (start + i) % s.clients.length)
      ∧ (normalizePreferredKeyIndex s pref = none →
          start = s.nextClientIndex % s.clients.length
          ∧ (getClientOrder s pref).2
              = { s with nextClientIndex := (start + 1) % s.clients.length })
      ∧ (∀ p, normalizePreferredKeyIndex s pref = some p →
          start = p ∧ (getClientOrder s pref).2 = s))
  ∧ (getClientOrder s pref).1.length = s.clients.length
  ∧ (getClientOrder s pref).1.Nodup
  ∧ (∀ m, m < s.clients.length → m ∈ (getClientOrder s pref).1)
  ∧ (unpinnedStarts s s.clients.length).Nodup
  ∧ (∀ m, m < s.clients.length → m ∈ unpinnedStarts s s.clients.length) := by
  have main : ∃ start : Nat, start < s.clients.length
      ∧ (getClientOrder s pref).1
          = (List.range s.clients.length).map (fun i => (start + i) % s.clients.length)
      ∧ (normalizePreferredKeyIndex s pref = none →
          start = s.nextClientIndex % s.clients.length
          ∧ (getClientOrder s pref).2
              = { s with nextClientIndex := (start + 1) % s.clients.length })
      ∧ (∀ p, normalizePreferredKeyIndex s pref = some p →
          start = p ∧ (getClientOrder s pref).2 = s) := by
    cases hp : normalizePreferredKeyIndex s pref with
    | none =>
      refine ⟨s.nextClientIndex % s.clients.length, Nat.mod_lt _ hN, ?_, ?_, ?_⟩
      · rw [getClientOrder_unresolved s pref hp hN]
      · intro _
        exact ⟨rfl, by rw [getClientOrder_unresolved s pref hp hN]⟩
      · intro p hp2
        exact Option.noConfusion hp2
    | some p =>
      refine ⟨p, normalize_lt s pref p hp, ?_, ?_, ?_⟩
      · rw [getClientOrder_pinned s pref p hp hN]
      · intro h0
        exact Option.noConfusion h0
      · intro p2 hp2
        have hpp : p = p2 := Option.some.inj hp2
        refine ⟨hpp, ?_⟩
        rw [getClientOrder_pinned s pref p hp hN]
  obtain ⟨start, hstart, horder, -, -⟩ := id main
  refine ⟨main, getClientOrder_length s pref, ?_, ?_, ?_, ?_⟩
  · rw [horder]
    exact rotation_nodup _ _
  · intro m hm
    rw [horder]
    exact rotation_mem _ _ _ hN hstart hm
  · rw [unpinnedStarts_formula _ s hN]
    exact rotation_nodup _ _
  · intro m hm
    rw [unpinnedStarts_formula _ s hN]
    exact rotation_mem _ _ _ hN (Nat.mod_lt _ hN) hm

theorem claimC3_witness :
    (getClientOrder stTwo JsVal.undef).1.Nodup
    ∧ (1 ∈ (getClientOrder stTwo JsVal.undef).1)
    ∧ (unpinnedStarts stTwo 2).Nodup
    ∧ (0 ∈ unpinnedStarts stTwo 2) :=
  ⟨(claimC3 stTwo JsVal.undef (by decide)).2.2.1,
   (claimC3 stTwo JsVal.undef (by decide)).2.2.2.1 1 (by decide),
   (claimC3 stTwo JsVal.undef (by decide)).2.2.2.2.1,
   (claimC3 stTwo JsVal.undef (by decide)).2.2.2.2.2 0 (by decide)⟩

theorem getClientOrder_clients (s : GeminiService) (pref : JsVal) :
    (getClientOrder s pref).2.clients = s.clients := by
  unfold getClientOrder
  by_cases h : s.clients.length = 0
  · simp [h]
  · rcases hnp : normalizePreferredKeyIndex s pref with - | p <;> simp [h, hnp]

/-- Claim C1: on a non-empty pool, a Transient failure (retryable status
408/500/502/503/504) on a round that is not the final allowed round is
recorded as the last error, causes the remaining clients of that round to be
skipped, and is followed by exactly one backoff sleep of
min(8000, 2^attempt*1000 + jitter) ms with jitter = Math.random()*500 in
[0, 500); with maxRetries = 3 and a Transient failure on every attempt the
call performs exactly 3 rounds (one invocation per round), 2 backoff delays
(the first in [1000, 1500) ms), and fails with the last Transient error. -/
theorem claimC1 (e : JsError) (sc : Nat) (hst : getStatus e = some sc)
    (hmem : sc ∈ [408, 500, 502, 503, 504]) :
    (∀ (α : Type) (op : Nat → Nat → Outcome α) (rand : Nat → Rat) (pref : JsVal)
      (mr r a calls : Nat) (last : Option JsError) (sleeps : List Rat)
      (s0 : GeminiService) (c : Nat) (rest : List Nat),
      a < mr - 1 →
      (getClientOrder s0 pref).1 = c :: rest →
      op calls c = Outcome.err e →
      retryLoop op rand pref mr (r + 1) s0 a calls last sleeps
        = retryLoop op rand pref mr r (getClientOrder s0 pref).2 (a + 1) (calls + 1)
            (some e) (sleeps ++ [min 8000 (2 ^ a * 1000 + rand sleeps.length * 500)]))
  ∧ (∀ (rand : Nat → Rat) (n : Nat), 0 ≤ rand n → rand n < 1 →
      0 ≤ rand n * 500 ∧ rand n * 500 < 500)
  ∧ (∀ (α : Type) (op : Nat → Nat → Outcome α) (rand : Nat → Rat) (pref : JsVal)
      (s0 : GeminiService),
      0 < s0.clients.length →
      (∀ k c, op k c = Outcome.err e) →
      (∀ n, 0 ≤ rand n ∧ rand n < 1) →
      (makeRequestWithRetry op rand pref 3 s0).out = Except.error (some e)
      ∧ (makeRequestWithRetry op rand pref 3 s0).calls = 3
      ∧ (makeRequestWithRetry op rand pref 3 s0).sleeps
          = [1000 + rand 0 * 500, 2000 + rand 1 * 500]
      ∧ 1000 ≤ 1000 + rand 0 * 500 ∧ 1000 + rand 0 * 500 < 1500) := by
  obtain ⟨f1, f2, f3, f4⟩ := transientFacts e sc hst hmem
  have step : ∀ (α : Type) (op : Nat → Nat → Outcome α) (rand : Nat → Rat) (pref : JsVal)
      (mr r a calls : Nat) (last : Option JsError) (sleeps : List Rat)
      (s0 : GeminiService) (c : Nat) (rest : List Nat),
      a < mr - 1 →
      (getClientOrder s0 pref).1 = c :: rest →
      op calls c = Outcome.err e →
      retryLoop op rand pref mr (r + 1) s0 a calls last sleeps
        = retryLoop op rand pref mr r (getClientOrder s0 pref).2 (a + 1) (calls + 1)
            (some e) (sleeps ++ [min 8000 (2 ^ a * 1000 + rand sleeps.length * 500)]) := by
    intro α op rand pref mr r a calls last sleeps s0 c rest hat hcr hop
    have h1 : tryClients op a mr (getClientOrder s0 pref).1 calls last
        = InnerOut.ended (calls + 1) (some e) := by
      rw [hcr]
      exact tryClients_break op a mr c rest calls last e sc hop hst hmem hat
    exact retryLoop_backoff op rand pref mr r s0 a calls last (some e) sleeps (calls + 1) h1 hat
  refine ⟨step, ?_, ?_⟩
  · intro rand n h1 h2
    constructor
    · positivity
    · nlinarith
  · intro α op rand pref s0 hN hop hrand
    have hlen1 : 0 < (getClientOrder s0 pref).2.clients.length := by
      rw [getClientOrder_clients]
      exact hN
    have hlen2 : 0 < (getClientOrder (getClientOrder s0 pref).2 pref).2.clients.length := by
      rw [getClientOrder_clients, getClientOrder_clients]
      exact hN
    obtain ⟨c1, rest1, hcr1⟩ := getClientOrder_ne_nil s0 pref hN
    obtain ⟨c2, rest2, hcr2⟩ := getClientOrder_ne_nil (getClientOrder s0 pref).2 pref hlen1
    obtain ⟨c3, rest3, hcr3⟩ :=
      getClientOrder_ne_nil (getClientOrder (getClientOrder s0 pref).2 pref).2 pref hlen2
    have h3 : tryClients op 2 3
        (getClientOrder (getClientOrder (getClientOrder s0 pref).2 pref).2 pref).1 2 (some e)
        = InnerOut.thrown e 3 (some e) := by
      rw [hcr3]
      exact tryClients_throw op 2 3 c3 rest3 2 (some e) e (hop 2 c3) f1 f2
        (by rw [f3]) (Or.inr (by omega))
    have hrun : makeRequestWithRetry op rand pref 3 s0
        = ⟨Except.error (some e), 3,
           [min 8000 (2 ^ 0 * 1000 + rand 0 * 500), min 8000 (2 ^ 1 * 1000 + rand 1 * 500)],
           (getClientOrder (getClientOrder (getClientOrder s0 pref).2 pref).2 pref).2⟩ := by
      rw [makeRequestWithRetry_run op rand pref 3 s0 hN,
        show (3 : Nat) = 2 + 1 from rfl,
        step α op rand pref 3 2 0 0 none [] s0 c1 rest1 (by omega) hcr1 (hop 0 c1),
        show (2 : Nat) = 1 + 1 from rfl,
        step α op rand pref 3 1 1 1 (some e) _ _ c2 rest2 (by omega) hcr2 (hop 1 c2)]
      rw [retryLoop_thrown op rand pref 3 0 _ 2 2 (some e) (some e) _ e 3 h3]
      rfl
    have hj0 := hrand 0
    have hj1 := hrand 1
    have hm0 : min (8000 : Rat) (2 ^ 0 * 1000 + rand 0 * 500) = 1000 + rand 0 * 500 := by
      rw [min_eq_right (by nlinarith)]
      norm_num
    have hm1 : min (8000 : Rat) (2 ^ 1 * 1000 + rand 1 * 500) = 2000 + rand 1 * 500 := by
      rw [min_eq_right (by nlinarith)]
      norm_num
    rw [hrun]
    refine ⟨rfl, rfl, ?_, by linarith, by nlinarith⟩
    rw [hm0, hm1]

theorem claimC1_witness :
    (makeRequestWithRetry opAllTransient rand0 JsVal.undef 3 stTwo).out
      = Except.error (some eTransient500)
    ∧ (makeRequestWithRetry opAllTransient rand0 JsVal.undef 3 stTwo).calls = 3
    ∧ (makeRequestWithRetry opAllTransient rand0 JsVal.undef 3 stTwo).sleeps
        = [1000 + rand0 0 * 500, 2000 + rand0 1 * 500]
    ∧ 1000 ≤ 1000 + rand0 0 * 500 ∧ 1000 + rand0 0 * 500 < 1500 :=
  (claimC1 eTransient500 500 rfl (by decide)).2.2 Unit opAllTransient rand0 JsVal.undef
    stTwo (by decide) (fun k c => rfl) (fun n => by constructor <;> norm_num [rand0])

/-- Counterexample to claim C8 as stated: pool construction does not remove
duplicates — the configured list "k1,k1" yields two clients bound to the
same credential, not one. -/
theorem claimC8_counterexample :
    (GeminiService.construct (some "k1,k1") none).1.clients = ["k1", "k1"]
    ∧ ¬ (GeminiService.construct (some "k1,k1") none).1.clients.Nodup := by
  exact ⟨rfl, by decide⟩

/-- Claim C8, as amended: pool construction splits the configured
comma-separated list on commas, trims each entry, drops empty entries and
preserves order (duplicates retained); if the resulting list is empty it
falls back to the single trimmed legacy credential as a one-element list; if
that is also empty the pool has zero clients; one client is built per
surviving credential, in order; and exactly when the pool ends empty the
non-fatal disabled-AI warning is emitted (construction never throws, being a
total function). -/
theorem claimC8 (keysEnv legacyEnv : Option String) :
    (GeminiService.construct keysEnv legacyEnv).1.apiKeys
      = specPoolCredentials keysEnv legacyEnv
    ∧ (GeminiService.construct keysEnv legacyEnv).1.clients
      = (GeminiService.construct keysEnv legacyEnv).1.apiKeys
    ∧ ((GeminiService.construct keysEnv legacyEnv).2 = true
      ↔ (GeminiService.construct keysEnv legacyEnv).1.clients.length = 0) := by
  refine ⟨?_, rfl, by simp [GeminiService.construct]⟩
  show (if (parseKeyList keysEnv).length = 0 ∧ jsTruthy legacyEnv then
        [jsTrim (legacyEnv.getD "")].filter (fun k => k ≠ "")
      else parseKeyList keysEnv)
    = specPoolCredentials keysEnv legacyEnv
  unfold specPoolCredentials
  have hprim : (match keysEnv with
      | none => []
      | some v =>
        if v = "" then [] else ((jsSplitComma v).map jsTrim).filter (fun k => k ≠ ""))
      = parseKeyList keysEnv := rfl
  rw [hprim]
  by_cases hk : parseKeyList keysEnv = []
  · rw [hk]
    cases legacyEnv with
    | none => simp [jsTruthy]
    | some l =>
      by_cases hl : l = ""
      · simp [jsTruthy, hl]
      · simp [jsTruthy, hl]
  · have hk2 : (parseKeyList keysEnv).length ≠ 0 := by
      simpa [List.length_eq_zero] using hk
    rw [if_neg (by tauto), if_neg hk]

theorem tryClients_break_general {α : Type} (op : Nat → Nat → Outcome α) (a mr c : Nat)
    (rest : List Nat) (calls : Nat) (last : Option JsError) (e : JsError)
    (hop : op calls c = Outcome.err e) (hq : isQuotaExceeded429 e = false)
    (hauth : isAuthError (getStatus e) = false) (h429 : (getStatus e == some 429) = false)
    (hretry : isRetryableStatus (getStatus e) = true) (hat : a < mr - 1) :
    tryClients op a mr (c :: rest) calls last = InnerOut.ended (calls + 1) (some e) := by
  conv_lhs => rw [tryClients]
  rw [hop]
  simp [hq, hauth, h429, hretry, hat]

theorem tryClients_origin {α : Type} (op : Nat → Nat → Outcome α) (a mr : Nat) :
    ∀ (order : List Nat) (calls : Nat) (last : Option JsError),
      (last = none ∨ ∃ e, last = some e ∧ ∃ k c, op k c = Outcome.err e) →
      ((∀ v calls2, tryClients op a mr order calls last = InnerOut.success v calls2 →
          ∃ k c, op k c = Outcome.ok v)
      ∧ (∀ e calls2 last2,
          tryClients op a mr order calls last = InnerOut.thrown e calls2 last2 →
          e = quotaError ∨ ∃ k c, op k c = Outcome.err e)
      ∧ (∀ calls2 last2, tryClients op a mr order calls last = InnerOut.ended calls2 last2 →
          last2 = none ∨ ∃ e, last2 = some e ∧ ∃ k c, op k c = Outcome.err e)) := by
  intro order
  induction order with
  | nil =>
    intro calls last hinv
    refine ⟨?_, ?_, ?_⟩
    · intro v calls2 h
      cases h
    · intro e calls2 last2 h
      cases h
    · intro calls2 last2 h
      cases h
      exact hinv
  | cons c rest ih =>
    intro calls last hinv
    have hinv2 : ∀ e2 : JsError, op calls c = Outcome.err e2 →
        (some e2 = none ∨ ∃ e, some e2 = some e ∧ ∃ k c2, op k c2 = Outcome.err e) :=
      fun e2 hop => Or.inr ⟨e2, rfl, calls, c, hop⟩
    rcases hop : op calls c with v | e
    · have heq := tryClients_ok op a mr c rest calls last v hop
      refine ⟨?_, ?_, ?_⟩
      · intro v2 calls2 h
        rw [heq] at h
        injection h with h1 h2
        exact ⟨calls, c, h1 ▸ hop⟩
      · intro e2 calls2 last2 h
        rw [heq] at h
        cases h
      · intro calls2 last2 h
        rw [heq] at h
        cases h
    · by_cases hq : isQuotaExceeded429 e = true
      · have heq := tryClients_quota op a mr c rest calls last e hop hq
        refine ⟨?_, ?_, ?_⟩
        · intro v2 calls2 h
          rw [heq] at h
          cases h
        · intro e2 calls2 last2 h
          rw [heq] at h
          injection h with h1 h2
          exact Or.inl h1.symm
        · intro calls2 last2 h
          rw [heq] at h
          cases h
      · have hq2 : isQuotaExceeded429 e = false := by simpa using hq
        by_cases hauth : isAuthError (getStatus e) = true
        · have heq := tryClients_cont op a mr c rest calls last e hop (Or.inl hauth)
          obtain ⟨ih1, ih2, ih3⟩ := ih (calls + 1) (some e) (hinv2 e hop)
          refine ⟨?_, ?_, ?_⟩
          · intro v2 calls2 h
            rw [heq] at h
            exact ih1 v2 calls2 h
          · intro e2 calls2 last2 h
            rw [heq] at h
            exact ih2 e2 calls2 last2 h
          · intro calls2 last2 h
            rw [heq] at h
            exact ih3 calls2 last2 h
        · by_cases h429 : getStatus e = some 429
          · have heq := tryClients_cont op a mr c rest calls last e hop (Or.inr ⟨h429, hq2⟩)
            obtain ⟨ih1, ih2, ih3⟩ := ih (calls + 1) (some e) (hinv2 e hop)
            refine ⟨?_, ?_, ?_⟩
            · intro v2 calls2 h
              rw [heq] at h
              exact ih1 v2 calls2 h
            · intro e2 calls2 last2 h
              rw [heq] at h
              exact ih2 e2 calls2 last2 h
            · intro calls2 last2 h
              rw [heq] at h
              exact ih3 calls2 last2 h
          · have hauth2 : isAuthError (getStatus e) = false := by simpa using hauth
            have h429b : (getStatus e == some 429) = false := by
              simp [beq_iff_eq, h429]
            by_cases hretry : isRetryableStatus (getStatus e) = true ∧ a < mr - 1
            · have heq := tryClients_break_general op a mr c rest calls last e hop hq2
                hauth2 h429b hretry.1 hretry.2
              refine ⟨?_, ?_, ?_⟩
              · intro v2 calls2 h
                rw [heq] at h
                cases h
              · intro e2 calls2 last2 h
                rw [heq] at h
                cases h
              · intro calls2 last2 h
                rw [heq] at h
                cases h
                exact hinv2 e hop
            · have hretry2 : isRetryableStatus (getStatus e) = false ∨ ¬ a < mr - 1 := by
                by_cases hr : isRetryableStatus (getStatus e) = true
                · exact Or.inr (fun hlt => hretry ⟨hr, hlt⟩)
                · exact Or.inl (by simpa using hr)
              have heq := tryClients_throw op a mr c rest calls last e hop hq2 hauth2
                h429b hretry2
              refine ⟨?_, ?_, ?_⟩
              · intro v2 calls2 h
                rw [heq] at h
                cases h
              · intro e2 calls2 last2 h
                rw [heq] at h
                injection h with h1 h2
                exact Or.inr ⟨calls, c, h1 ▸ hop⟩
              · intro calls2 last2 h
                rw [heq] at h
                cases h

theorem retryLoop_origin {α : Type} (op : Nat → Nat → Outcome α) (rand : Nat → Rat)
    (pref : JsVal) (mr : Nat) :
    ∀ (remaining : Nat) (s : GeminiService) (a calls : Nat) (last : Option JsError)
      (sleeps : List Rat),
      (last = none ∨ ∃ e, last = some e ∧ ∃ k c, op k c = Outcome.err e) →
      ((∃ v, (retryLoop op rand pref mr remaining s a calls last sleeps).out = Except.ok v
          ∧ ∃ k c, op k c = Outcome.ok v)
        ∨ (retryLoop op rand pref mr remaining s a calls last sleeps).out
            = Except.error (some quotaError)
        ∨ (∃ e, (retryLoop op rand pref mr remaining s a calls last sleeps).out
            = Except.error (some e) ∧ ∃ k c, op k c = Outcome.err e)
        ∨ (retryLoop op rand pref mr remaining s a calls last sleeps).out
            = Except.error none) := by
  intro remaining
  induction remaining with
  | zero =>
    intro s a calls last sleeps hinv
    rcases hinv with h | ⟨e, he, horig⟩
    · right; right; right
      rw [retryLoop_zero, h]
    · right; right; left
      exact ⟨e, by rw [retryLoop_zero, he], horig⟩
  | succ r ih =>
    intro s a calls last sleeps hinv
    obtain ⟨hsucc, hthr, hend⟩ :=
      tryClients_origin op a mr (getClientOrder s pref).1 calls last hinv
    rcases htc : tryClients op a mr (getClientOrder s pref).1 calls last with
      ⟨v, calls2⟩ | ⟨e, calls2, last2⟩ | ⟨calls2, last2⟩
    · left
      exact ⟨v, by rw [retryLoop_success op rand pref mr r s a calls last sleeps v calls2 htc],
        hsucc v calls2 htc⟩
    · rcases hthr e calls2 last2 htc with h | horig
      · right; left
        rw [retryLoop_thrown op rand pref mr r s a calls last last2 sleeps e calls2 htc, h]
      · right; right; left
        exact ⟨e,
          by rw [retryLoop_thrown op rand pref mr r s a calls last last2 sleeps e calls2 htc],
          horig⟩
    · have hinv2 := hend calls2 last2 htc
      by_cases hat : a < mr - 1
      · rw [retryLoop_backoff op rand pref mr r s a calls last last2 sleeps calls2 htc hat]
        exact ih _ _ _ _ _ hinv2
      · rw [retryLoop_final op rand pref mr r s a calls last last2 sleeps calls2 htc hat]
        exact ih _ _ _ _ _ hinv2

/-- Claim C9, as amended: a `makeRequestWithRetry` call either returns a
value the operation produced, or raises one of the two dispatcher-built
classified errors (ServiceUnavailable for an empty pool, QuotaExhausted) —
each carrying a status code and a user-facing message distinct from its
diagnostic message — or surfaces an error thrown by the operation as-is
(which may lack a status and a user message), or, when no round ever
recorded an error (maxRetries = 0), throws the undefined last error; it
never partially succeeds. -/
theorem claimC9 {α : Type} (op : Nat → Nat → Outcome α) (rand : Nat → Rat)
    (pref : JsVal) (maxRetries : Nat) (s : GeminiService) :
    ((∃ v, (makeRequestWithRetry op rand pref maxRetries s).out = Except.ok v
        ∧ ∃ k c, op k c = Outcome.ok v)
      ∨ (makeRequestWithRetry op rand pref maxRetries s).out
          = Except.error (some notInitializedError)
      ∨ (makeRequestWithRetry op rand pref maxRetries s).out
          = Except.error (some quotaError)
      ∨ (∃ e, (makeRequestWithRetry op rand pref maxRetries s).out
          = Except.error (some e) ∧ ∃ k c, op k c = Outcome.err e)
      ∨ (makeRequestWithRetry op rand pref maxRetries s).out = Except.error none)
    ∧ notInitializedError.status.isSome = true
    ∧ notInitializedError.userMessage.isSome = true
    ∧ notInitializedError.userMessage ≠ some notInitializedError.message
    ∧ quotaError.status.isSome = true
    ∧ quotaError.userMessage.isSome = true
    ∧ quotaError.userMessage ≠ some quotaError.message := by
  refine ⟨?_, rfl, rfl, by decide, rfl, rfl, by decide⟩
  by_cases h : s.clients.length = 0
  · right; left
    rw [makeRequestWithRetry_empty op rand pref maxRetries s h]
  · rw [makeRequestWithRetry_run op rand pref maxRetries s (by omega)]
    rcases retryLoop_origin op rand pref maxRetries maxRetries s 0 0 none [] (Or.inl rfl) with
      h1 | h1 | h1 | h1
    · exact Or.inl h1
    · exact Or.inr (Or.inr (Or.inl h1))
    · exact Or.inr (Or.inr (Or.inr (Or.inl h1)))
    · exact Or.inr (Or.inr (Or.inr (Or.inr h1)))

/-- Counterexample to claim C9 as stated: an operation failure with neither a
status nor a user-facing message is surfaced as-is, so the call raises a
failure lacking the fields the claim requires of every raised failure. -/
theorem claimC9_counterexample :
    (makeRequestWithRetry opAllBare rand0 JsVal.undef 3 stOne).out
      = Except.error (some eBare)
    ∧ eBare.status = none ∧ eBare.userMessage = none := by
  exact ⟨rfl, rfl, rfl⟩

theorem natCastBneNegOne (n : Nat) : (((n : Int)) != -1) = true := by
  simp [bne_iff_ne]

theorem natCastBeqNegOne (n : Nat) : (((n : Int)) == -1) = false := by
  simp [beq_iff_eq]

theorem leadsWith_self (pat l2 : List Char) : leadsWith pat (pat ++ l2) = true := by
  induction pat with
  | nil => rfl
  | cons p ps ih => simp [leadsWith, ih]

theorem occursIn_append (pat l1 l2 : List Char) : occursIn pat (l1 ++ (pat ++ l2)) = true := by
  induction l1 with
  | nil =>
    cases pat with
    | nil => cases l2 <;> rfl
    | cons p ps =>
      simp only [List.nil_append, occursIn, Bool.or_eq_true]
      exact Or.inl (leadsWith_self (p :: ps) l2)
  | cons c l1 ih => simp [occursIn, ih]

/-- Claim C7, as amended: `cleanJson` strips code fences, trims, and returns
the direct parse's value when it succeeds; otherwise the first `{` and first
`[` of the original text select object versus array (whichever occurs first
and is present), the substring runs through the last occurrence of the
matching closer, and its successful parse is returned; when no opening
delimiter is present, or the matching closer is absent, it fails with a
parse error whose message includes the first 100 characters of the original
text; when the extracted substring fails to parse, it fails with the
parser's own error instead (which does not carry that prefix); it never
returns a value that did not come from a successful parse. -/
theorem claimC7 {α : Type} (parse : String → Except String α) (text : String) :
    cleanJsonWith parse text = cleanJsonSpec parse text
  ∧ strIncludes (parseFailMessage text) (jsSubstring text 0 100) = true
  ∧ (∀ v, cleanJsonWith parse text = Except.ok v →
      parse (stripFenced text) = Except.ok v
      ∨ ∃ a b, jsonDelimiterChoice text = some (a, b)
          ∧ parse (jsSubstring text a (b + 1)) = Except.ok v) := by
  have hmain : cleanJsonWith parse text = cleanJsonSpec parse text := by
    unfold cleanJsonWith cleanJsonSpec
    cases hp : parse (stripFenced text) with
    | ok v => rfl
    | error em =>
      unfold jsonDelimiterChoice strIndexOf strLastIndexOf
      rcases hb : strIndexOfQ text lbrace with - | ob <;>
        rcases hk : strIndexOfQ text '[' with - | br
      · simp
      · rcases hlb : strLastIndexOfQ text ']' with - | b <;>
          simp [natCastBneNegOne, natCastBeqNegOne, Int.toNat_natCast]
      · rcases hlb : strLastIndexOfQ text rbrace with - | b <;>
          simp [natCastBneNegOne, natCastBeqNegOne, Int.toNat_natCast]
      · by_cases hlt : ob < br
        · have hlt2 : ((ob : Int) < (br : Int)) := by exact_mod_cast hlt
          rcases hlb : strLastIndexOfQ text rbrace with - | b <;>
            simp [natCastBneNegOne, natCastBeqNegOne, Int.toNat_natCast, hlt, hlt2]
        · have hlt2 : ¬ ((ob : Int) < (br : Int)) := by exact_mod_cast hlt
          rcases hlb : strLastIndexOfQ text ']' with - | b <;>
            simp [natCastBneNegOne, natCastBeqNegOne, Int.toNat_natCast, hlt, hlt2]
  refine ⟨hmain, ?_, ?_⟩
  · show occursIn (jsSubstring text 0 100).data
      ("Failed to parse JSON from AI response: " ++ jsSubstring text 0 100 ++ "...").data = true
    rw [show ("Failed to parse JSON from AI response: " ++ jsSubstring text 0 100 ++ "...").data
        = "Failed to parse JSON from AI response: ".data
          ++ ((jsSubstring text 0 100).data ++ "...".data) by
      rw [String.data_append, String.data_append, List.append_assoc]]
    exact occursIn_append _ _ _
  · intro v hv
    rw [hmain] at hv
    unfold cleanJsonSpec at hv
    cases hp : parse (stripFenced text) with
    | ok w =>
      rw [hp] at hv
      simp at hv
      exact Or.inl (by rw [hv])
    | error em =>
      rw [hp] at hv
      rcases hd : jsonDelimiterChoice text with - | ⟨a, b⟩
      · rw [hd] at hv
        simp at hv
      · rw [hd] at hv
        simp at hv
        cases hps : parse (jsSubstring text a (b + 1)) with
        | ok w =>
          rw [hps] at hv
          simp at hv
          exact Or.inr ⟨a, b, rfl, hps.trans (by rw [hv])⟩
        | error m =>
          rw [hps] at hv
          simp at hv
/-- Counterexample to claim C7 as stated: on input "xx{bad}yy" the direct
parse fails, the brace-delimited substring "{bad}" is extracted but fails to
parse, and the resulting failure is the parser's own token error — its
message does not include the first 100 characters of the original text (the
whole text here), contrary to the claim. -/
theorem claimC7_counterexample :
    cleanJsonWith jsonParse "xx\x7bbad\x7dyy"
      = Except.error (CleanJsonError.parserError "Unexpected token")
    ∧ strIncludes "Unexpected token" (jsSubstring "xx\x7bbad\x7dyy" 0 100) = false := by
  exact ⟨rfl, rfl⟩

theorem claimC7_witness :
    cleanJsonWith jsonParse "prefix [1,2,3] suffix"
      = cleanJsonSpec jsonParse "prefix [1,2,3] suffix"
    ∧ (jsonParse (stripFenced "prefix [1,2,3] suffix") = Except.ok ()
      ∨ ∃ a b, jsonDelimiterChoice "prefix [1,2,3] suffix" = some (a, b)
          ∧ jsonParse (jsSubstring "prefix [1,2,3] suffix" a (b + 1)) = Except.ok ()) :=
  ⟨(claimC7 jsonParse "prefix [1,2,3] suffix").1,
   (claimC7 jsonParse "prefix [1,2,3] suffix").2.2 () (by rfl)⟩

theorem claimC10_witness :
    tryClients opAllPlain429 0 3 [0, 1] 0 none
      = tryClients opAllPlain429 0 3 [1] 1 (some ePlain429) :=
  claimC10.2.1 Unit opAllPlain429 0 3 0 [1] 0 none ePlain429 rfl rfl (by decide)

theorem claimC8_witness :
    (GeminiService.construct (some " a ,, b ") none).1.apiKeys
      = specPoolCredentials (some " a ,, b ") none :=
  (claimC8 (some " a ,, b ") none).1

theorem claimC9_witness :
    (∃ v, (makeRequestWithRetry opAuthThenOk rand0 JsVal.undef 3 stTwo).out = Except.ok v
        ∧ ∃ k c, opAuthThenOk k c = Outcome.ok v)
    ∨ (makeRequestWithRetry opAuthThenOk rand0 JsVal.undef 3 stTwo).out
        = Except.error (some notInitializedError)
    ∨ (makeRequestWithRetry opAuthThenOk rand0 JsVal.undef 3 stTwo).out
        = Except.error (some quotaError)
    ∨ (∃ e, (makeRequestWithRetry opAuthThenOk rand0 JsVal.undef 3 stTwo).out
        = Except.error (some e) ∧ ∃ k c, opAuthThenOk k c = Outcome.err e)
    ∨ (makeRequestWithRetry opAuthThenOk rand0 JsVal.undef 3 stTwo).out = Except.error none :=
  (claimC9 opAuthThenOk rand0 JsVal.undef 3 stTwo).1

end MovieMania
